import Mathlib

/-!
Verification of the ClusterPipe core algorithms against their
natural-language specification.

The development shallowly embeds, over the reals:
  * the energy-weighted PSF estimator `get_cta_psf`
    (src/Tools/plotting.py, lines 59-97),
  * the sky-map rendering pipeline `show_map`
    (src/Tools/plotting.py, lines 203-374), including the Gaussian
    smoothing step, the significance correction, the empty-map guard
    and the overlay geometry,
  * the observation-ID validator `Admin._check_obsID`
    (src/clustpipe_admin.py, lines 38-89).

Floating-point arithmetic of the source is modelled by real arithmetic;
Python exceptions are modelled with `Except`; optional (`None`-able)
arguments are modelled with `Option`.
-/

open Real

namespace ClusterPipe

open Classical

/-! ### PSF estimator (src/Tools/plotting.py, `get_cta_psf`) -/

/-- The factor `2*np.sqrt(2*np.log(2))` used in the source to convert a
Gaussian dispersion to a full width at half maximum
(plotting.py line 91). -/
noncomputable def FWHM_factor : ℝ := 2 * Real.sqrt (2 * Real.log 2)

/-- The `i`-th point of `np.logspace(np.log10(emin), np.log10(emax), 1000)`
(plotting.py line 89): a 1000-point grid, logarithmically spaced in base 10,
whose endpoints are `emin` and `emax`; `numpy` places point `i` at exponent
`log10 emin + i * (log10 emax - log10 emin) / 999`. -/
noncomputable def e_itpl (emin emax : ℝ) (i : ℕ) : ℝ :=
  (10 : ℝ) ^ (Real.logb 10 emin + (i : ℝ) * ((Real.logb 10 emax - Real.logb 10 emin) / 999))

/-- The index set selected by `weng = (e_itpl > emin) * (e_itpl < emax)`
(plotting.py line 93): the grid points strictly inside `(emin, emax)`. -/
noncomputable def psf_weights (emin emax : ℝ) : Finset ℕ :=
  (Finset.range 1000).filter (fun i => emin < e_itpl emin emax i ∧ e_itpl emin emax i < emax)

/-- Embedding of `get_cta_psf` (plotting.py lines 59-97).  The cubic
interpolant `scipy.interpolate.interp1d(eng_mean, PSF_E, kind='cubic')`
built from the tabulated calibration samples is an external-library call and
is abstracted as the function parameter `fitpl`; everything after that call
is modelled literally: the interpolant is evaluated on the logarithmic grid,
converted to FWHM by `FWHM_factor` (line 91), restricted to the grid points
strictly inside `(emin, emax)` (line 93), and averaged with the spectral
weights `e_itpl ** w8_slope` (line 95). -/
noncomputable def get_cta_psf (fitpl : ℝ → ℝ) (emin emax w8_slope : ℝ) : ℝ :=
  (∑ i in psf_weights emin emax,
      (fitpl (e_itpl emin emax i) * FWHM_factor) * e_itpl emin emax i ^ w8_slope) /
  (∑ i in psf_weights emin emax, e_itpl emin emax i ^ w8_slope)

lemma e_itpl_zero {emin emax : ℝ} (h0 : 0 < emin) : e_itpl emin emax 0 = emin := by
  have : Real.logb 10 emin + (0 : ℝ) * ((Real.logb 10 emax - Real.logb 10 emin) / 999)
      = Real.logb 10 emin := by ring
  rw [e_itpl, Nat.cast_zero, this]
  exact Real.rpow_logb (by norm_num) (by norm_num) h0

lemma e_itpl_last {emin emax : ℝ} (h1 : 0 < emax) : e_itpl emin emax 999 = emax := by
  have : Real.logb 10 emin + (999 : ℝ) * ((Real.logb 10 emax - Real.logb 10 emin) / 999)
      = Real.logb 10 emax := by ring
  rw [e_itpl, Nat.cast_ofNat, this]
  exact Real.rpow_logb (by norm_num) (by norm_num) h1

lemma e_itpl_strictMono {emin emax : ℝ} (h0 : 0 < emin) (h1 : emin < emax)
    {i j : ℕ} (hij : i < j) : e_itpl emin emax i < e_itpl emin emax j := by
  have hb : Real.logb 10 emin < Real.logb 10 emax :=
    Real.logb_lt_logb (by norm_num) h0 h1
  have hc : 0 < (Real.logb 10 emax - Real.logb 10 emin) / 999 :=
    div_pos (sub_pos.mpr hb) (by norm_num)
  apply (Real.rpow_lt_rpow_left_iff (by norm_num : (1:ℝ) < 10)).mpr
  have : (i : ℝ) < (j : ℝ) := Nat.cast_lt.mpr hij
  nlinarith

lemma psf_weights_eq_Icc {emin emax : ℝ} (h0 : 0 < emin) (h1 : emin < emax) :
    psf_weights emin emax = Finset.Icc 1 998 := by
  ext i
  simp only [psf_weights, Finset.mem_filter, Finset.mem_range, Finset.mem_Icc]
  constructor
  · rintro ⟨hi, hlo, hhi⟩
    constructor
    · by_contra hlt
      push_neg at hlt
      interval_cases i
      exact absurd hlo (by rw [e_itpl_zero h0]; exact lt_irrefl _)
    · by_contra hgt
      push_neg at hgt
      have h999 : i = 999 := by omega
      subst h999
      rw [e_itpl_last (h0.trans h1)] at hhi
      exact lt_irrefl _ hhi
  · rintro ⟨hlo, hhi⟩
    refine ⟨by omega, ?_, ?_⟩
    · have := e_itpl_strictMono h0 h1 (show 0 < i by omega)
      rwa [e_itpl_zero h0] at this
    · have := e_itpl_strictMono h0 h1 (show i < 999 by omega)
      rwa [e_itpl_last (h0.trans h1)] at this

/-- C1: for every calibration-curve interpolant and every valid range
`0 < emin < emax`, `get_cta_psf` returns the weighted mean
`Σ(width_i * E_i ^ w8_slope) / Σ(E_i ^ w8_slope)` where the `E_i` are
exactly the points of the 1000-point logarithmic grid that lie strictly
inside `(emin, emax)` (namely the grid indices 1 to 998, the two endpoint
points `E_0 = emin` and `E_999 = emax` being excluded by the strict
inequalities), and `width_i` is the interpolant evaluated at `E_i` times
the FWHM conversion constant `2*sqrt(2*ln 2)`. -/
theorem get_cta_psf_weighted_mean (fitpl : ℝ → ℝ) (w8_slope emin emax : ℝ)
    (h0 : 0 < emin) (h1 : emin < emax) :
    psf_weights emin emax = Finset.Icc 1 998 ∧
    get_cta_psf fitpl emin emax w8_slope =
      (∑ i in Finset.Icc 1 998,
          (fitpl (e_itpl emin emax i) * FWHM_factor) * e_itpl emin emax i ^ w8_slope) /
      (∑ i in Finset.Icc 1 998, e_itpl emin emax i ^ w8_slope) := by
  have h := psf_weights_eq_Icc h0 h1
  exact ⟨h, by rw [get_cta_psf, h]⟩

/-- Witness for C1 at the concrete range `[1, 10]` TeV with a constant
interpolant. -/
theorem get_cta_psf_weighted_mean_witness :
    psf_weights 1 10 = Finset.Icc 1 998 ∧
    get_cta_psf (fun _ => 1) 1 10 (-2) =
      (∑ i in Finset.Icc 1 998,
          ((fun (_ : ℝ) => (1:ℝ)) (e_itpl 1 10 i) * FWHM_factor) * e_itpl 1 10 i ^ (-2 : ℝ)) /
      (∑ i in Finset.Icc 1 998, e_itpl 1 10 i ^ (-2 : ℝ)) :=
  get_cta_psf_weighted_mean (fun _ => 1) (-2) 1 10 (by norm_num) (by norm_num)

/-- Counterexample to C4: with the inverted range `emin = 2 > 1 = emax`
the call does not fail; the strict-inequality filter is empty and the
function returns the quotient of two empty sums, a plain value (the real
embedding of the `0/0` RuntimeWarning that `numpy` produces, not an
exception). -/
theorem psf_inverted_range_returns_value :
    psf_weights 2 1 = ∅ ∧ get_cta_psf (fun _ => 1) 2 1 (-2) = 0 := by
  have h : psf_weights 2 1 = ∅ := by
    rw [psf_weights, Finset.filter_eq_empty_iff]
    rintro i - ⟨h2, h1⟩
    linarith
  refine ⟨h, ?_⟩
  rw [get_cta_psf, h]
  simp

/-- C4 amended: for every degenerate or inverted range (`emax ≤ emin`) the
PSF estimator does not raise; the strict-inequality filter selects no grid
point and the returned value is the indeterminate quotient `0 / 0` of two
empty sums (a NaN with a RuntimeWarning in the floating-point code). -/
theorem psf_inverted_range_nan (fitpl : ℝ → ℝ) (w8_slope emin emax : ℝ)
    (h : emax ≤ emin) :
    psf_weights emin emax = ∅ ∧ get_cta_psf fitpl emin emax w8_slope = 0 / 0 := by
  have hw : psf_weights emin emax = ∅ := by
    rw [psf_weights, Finset.filter_eq_empty_iff]
    rintro i - ⟨hlo, hhi⟩
    linarith
  refine ⟨hw, ?_⟩
  rw [get_cta_psf, hw]
  simp

/-- Witness for the amended C4 at the concrete inverted range `[3, 1]`. -/
theorem psf_inverted_range_nan_witness :
    psf_weights 3 1 = ∅ ∧ get_cta_psf (fun _ => 0) 3 1 (-1) = 0 / 0 :=
  psf_inverted_range_nan (fun _ => 0) (-1) 3 1 (by norm_num)

/-! ### Gaussian smoothing (`scipy.ndimage.gaussian_filter`, plotting.py line 265)

The smoothing call is modelled from scipy's own implementation of
`gaussian_filter`: along each axis a 1-D correlation with a normalized
Gaussian kernel of half-width `lw = int(4*sigma + 0.5)` and weights
`exp(-k^2 / (2*sigma^2))`, using the default `reflect` boundary mode.
For `sigma = 0` the half-width is `0` and the kernel is the singleton
`[1.0]`, so the filter is the identity, exactly as in scipy. -/

/-- Index reflection for scipy's default boundary mode `reflect`
(`(d c b a | a b c d | d c b a)`): fold an arbitrary integer index into
`[0, n)` with period `2n`. -/
def reflectIdx (n : ℕ) (i : ℤ) : ℕ :=
  let j := i % (2 * (n : ℤ))
  if j < (n : ℤ) then j.toNat else (2 * (n : ℤ) - 1 - j).toNat

lemma reflectIdx_lt {n : ℕ} (hn : 0 < n) (i : ℤ) : reflectIdx n i < n := by
  have h2n : (0 : ℤ) < 2 * (n : ℤ) := by positivity
  have h1 : 0 ≤ i % (2 * (n : ℤ)) := Int.emod_nonneg i (by omega)
  have h2 : i % (2 * (n : ℤ)) < 2 * (n : ℤ) := Int.emod_lt_of_pos i h2n
  rw [reflectIdx]
  split <;> omega

lemma reflectIdx_coe {n i : ℕ} (h : i < n) : reflectIdx n i = i := by
  have hmod : (i : ℤ) % (2 * (n : ℤ)) = (i : ℤ) :=
    Int.emod_eq_of_lt (by positivity) (by omega)
  rw [reflectIdx]
  simp only [hmod]
  rw [if_pos (by omega)]
  omega

/-- The kernel half-width `lw = int(truncate * sigma + 0.5)` with scipy's
default `truncate = 4.0`. -/
noncomputable def kernel_radius (σ : ℝ) : ℕ := (⌊4 * σ + 1 / 2⌋).toNat

/-- The unnormalized Gaussian kernel weight at position `k` of a kernel of
half-width `lw`, i.e. at offset `k - lw`: `exp(-(k-lw)^2 / (2*sigma^2))`.
(For `sigma = 0` the half-width is `0` and the only weight is the center
one, which scipy sets to `1.0`; here `(0:ℝ)/0 = 0` gives the same value.) -/
noncomputable def gaussian_weight (σ : ℝ) (lw k : ℕ) : ℝ :=
  Real.exp (-(((k : ℝ) - (lw : ℝ)) ^ 2 / (2 * σ ^ 2)))

/-- The normalized kernel weight: scipy divides the weight vector by its
sum. -/
noncomputable def gaussian_kernel (σ : ℝ) (lw k : ℕ) : ℝ :=
  gaussian_weight σ lw k / ∑ k' in Finset.range (2 * lw + 1), gaussian_weight σ lw k'

/-- One-dimensional Gaussian correlation of a vector of length `n`, with
reflect boundary handling. -/
noncomputable def gaussian_filter1d {n : ℕ} (σ : ℝ) (v : Fin n → ℝ) : Fin n → ℝ :=
  fun i => ∑ k in Finset.range (2 * kernel_radius σ + 1),
    gaussian_kernel σ (kernel_radius σ) k *
      v ⟨reflectIdx n ((i : ℤ) + (k : ℤ) - (kernel_radius σ : ℤ)), reflectIdx_lt i.pos _⟩

/-- Two-dimensional Gaussian filter: scipy's `gaussian_filter` applies the
1-D filter sequentially along axis 0 and then axis 1. -/
noncomputable def gaussian_filter {n m : ℕ} (σ : ℝ) (img : Fin n → Fin m → ℝ) :
    Fin n → Fin m → ℝ :=
  fun i j => gaussian_filter1d σ (fun j' => gaussian_filter1d σ (fun i' => img i' j') i) j

lemma kernel_radius_zero : kernel_radius 0 = 0 := by
  rw [kernel_radius]
  norm_num

lemma gaussian_filter1d_zero_sigma {n : ℕ} (v : Fin n → ℝ) :
    gaussian_filter1d 0 v = v := by
  funext i
  rw [gaussian_filter1d]
  simp only [kernel_radius_zero]
  rw [show 2 * 0 + 1 = 1 from rfl, Finset.sum_range_one]
  have hw : gaussian_weight 0 0 0 = 1 := by
    rw [gaussian_weight]
    norm_num
  have hk : gaussian_kernel 0 0 0 = 1 := by
    rw [gaussian_kernel, Finset.sum_range_one, hw]
    norm_num
  rw [hk, one_mul]
  congr 1
  apply Fin.ext
  simp only
  rw [show (i : ℤ) + (0 : ℕ) - (0 : ℕ) = (i : ℤ) by push_cast; ring]
  exact reflectIdx_coe i.isLt

lemma gaussian_filter_zero_sigma {n m : ℕ} (img : Fin n → Fin m → ℝ) :
    gaussian_filter 0 img = img := by
  funext i j
  rw [gaussian_filter, gaussian_filter1d_zero_sigma]
  rw [gaussian_filter1d_zero_sigma (fun i' => img i' j)]

lemma gaussian_filter1d_zero_vec {n : ℕ} (σ : ℝ) :
    gaussian_filter1d σ (fun _ : Fin n => (0 : ℝ)) = fun _ => 0 := by
  funext i
  rw [gaussian_filter1d]
  simp

lemma gaussian_filter_zero_image {n m : ℕ} (σ : ℝ) (img : Fin n → Fin m → ℝ)
    (hz : ∀ i j, img i j = 0) : ∀ i j, gaussian_filter σ img i j = 0 := by
  intro i j
  rw [gaussian_filter]
  have h1 : ∀ j' : Fin m, gaussian_filter1d σ (fun i' => img i' j') i = 0 := by
    intro j'
    have : (fun i' => img i' j') = fun _ : Fin n => (0 : ℝ) := funext (fun i' => hz i' j')
    rw [this, gaussian_filter1d_zero_vec]
  have : (fun j' => gaussian_filter1d σ (fun i' => img i' j') i)
      = fun _ : Fin m => (0 : ℝ) := funext h1
  rw [this, gaussian_filter1d_zero_vec]

/-! ### Sky-map renderer (`show_map`, plotting.py lines 203-374) -/

/-- The pixel-space smoothing dispersion
`sigma_sm = (smoothing_FWHM/(2*np.sqrt(2*np.log(2)))).to_value('deg')/reso`
(plotting.py line 264), with both quantities expressed in degrees. -/
noncomputable def sigma_sm (smoothing_FWHM reso : ℝ) : ℝ :=
  smoothing_FWHM / FWHM_factor / reso

/-- The significance correction (plotting.py lines 267-269): when the
`significance` flag is set, every pixel is multiplied by
`norm = 2*sigma_sm*np.sqrt(np.pi)`; otherwise the image is untouched.
There is no special case for `sigma_sm = 0` in the source. -/
noncomputable def significance_correction (significance : Bool) (σ : ℝ) {n m : ℕ}
    (img : Fin n → Fin m → ℝ) : Fin n → Fin m → ℝ :=
  if significance then fun i j => img i j * (2 * σ * Real.sqrt Real.pi) else img

/-- The cluster characteristic-radius ellipse (plotting.py lines 295-304):
`matplotlib.patches.Ellipse((cluster_ra, cluster_dec), circle_rad, 2*cluster_t500)`
with `circle_rad = 2*cluster_t500/np.cos(cluster_dec*np.pi/180)`.  The
result records (center RA, center Dec, full RA width, full Dec height);
matplotlib's `width`/`height` are full axis lengths. -/
noncomputable def cluster_ellipse (ra dec t500 : ℝ) : ℝ × ℝ × ℝ × ℝ :=
  (ra, dec, 2 * t500 / Real.cos (dec * Real.pi / 180), 2 * t500)

/-- The pointing argument of `show_map`: `None`, a single RA/Dec pair, or
parallel lists of RA and Dec values. -/
inductive PtgInput
  | noPtg : PtgInput
  | single (ra dec : ℝ) : PtgInput
  | multiple (ras decs : List ℝ) : PtgInput

/-- The pointing label (plotting.py lines 312-325).  For a scalar pair the
`try` branch succeeds and writes the text `"Pointing"` at
`(ptg_ra, ptg_dec+0.2)`; for a list argument `ptg_dec+0.2` raises a
`TypeError`, and the `except` branch writes `"Pointings"` anchored at the
first pointing `(ptg_ra[0], ptg_dec[0]+0.2)` only.  (An empty list would
raise an uncaught `IndexError` inside the `except` branch; that case is
modelled as `none`.) -/
noncomputable def pointing_label : PtgInput → Option (String × ℝ × ℝ)
  | PtgInput.noPtg => none
  | PtgInput.single ra dec => some ("Pointing", ra, dec + 0.2)
  | PtgInput.multiple ras decs =>
      match ras, decs with
      | ra0 :: _, dec0 :: _ => some ("Pointings", ra0, dec0 + 0.2)
      | _, _ => none

/-- The point-source overlay loop (plotting.py lines 338-344):
`for i in range(len(ps_name))`, an entry is rendered (open-circle marker at
`(ps_ra[i], ps_dec[i])` plus a text label `ps_name[i]`) exactly when both
`ps_ra[i]` and `ps_dec[i]` are not `None`; otherwise the entry is silently
skipped. -/
def psMarkers (ps_name : List String) (ps_ra ps_dec : List (Option ℝ)) :
    List (String × ℝ × ℝ) :=
  (List.range ps_name.length).filterMap (fun i =>
    match ps_ra.getD i none, ps_dec.getD i none with
    | some ra, some dec => some (ps_name.getD i "", ra, dec)
    | _, _ => none)

/-- The guard of the cluster-radius overlay (plotting.py line 295): the
ellipse is drawn exactly when `cluster_t500`, `cluster_ra` and
`cluster_dec` are all given. -/
noncomputable def cluster500_overlay (cra cdec ct : Option ℝ) : Option (ℝ × ℝ × ℝ × ℝ) :=
  match ct, cra, cdec with
  | some t, some ra, some dec => some (cluster_ellipse ra dec t)
  | _, _, _ => none

/-- The cluster-center marker (plotting.py lines 329-335): a cross at
`(cluster_ra, cluster_dec)` with the cluster name as label, drawn exactly
when both coordinates are given. -/
def center_marker (cra cdec : Option ℝ) (cname : String) : Option (ℝ × ℝ × String) :=
  match cra, cdec with
  | some ra, some dec => some (ra, dec, cname)
  | _, _ => none

/-- The warnings printed by `show_map`: the significance-boost caveat
(plotting.py lines 270-271) and the empty-map warning (line 374). -/
inductive MapWarning
  | significanceBoost : MapWarning
  | emptyMap : MapWarning
deriving DecidableEq

/-- The observable outcome of a `show_map` call: whether the output file
was written, the warnings printed, the pixel raster after smoothing and
significance correction, and the overlay geometry that was drawn. -/
structure ShowMapResult (n m : ℕ) where
  fileWritten : Bool
  warnings : List MapWarning
  finalImage : Fin n → Fin m → ℝ
  cluster500 : Option (ℝ × ℝ × ℝ × ℝ)
  centerMarker : Option (ℝ × ℝ × String)
  ptgLabel : Option (String × ℝ × ℝ)
  pointSources : List (String × ℝ × ℝ)

/-- Embedding of `show_map` (plotting.py lines 203-374).  The raster and
the pixel scale `reso` read from the FITS file are taken as inputs; the
smoothing (line 265), significance correction (lines 267-269), empty-map
guard (line 285: `np.amax(image) == 0 and np.amin(image) == 0`, which for
a nonempty raster holds exactly when every pixel is zero) and the overlay
geometry are modelled.  In the empty case the source only prints the
warning `'!!!!!!!!!! WARNING: empty map, ... was not created'` and writes
no file. -/
noncomputable def show_map {n m : ℕ} (image : Fin n → Fin m → ℝ) (reso : ℝ)
    (smoothing_FWHM : ℝ)
    (cluster_ra cluster_dec cluster_t500 : Option ℝ) (cluster_name : String)
    (ps_name : List String) (ps_ra ps_dec : List (Option ℝ))
    (ptg : PtgInput) (significance : Bool) : ShowMapResult n m :=
  if ¬ (∀ i j, significance_correction significance (sigma_sm smoothing_FWHM reso)
        (gaussian_filter (sigma_sm smoothing_FWHM reso) image) i j = 0) then
    { fileWritten := true
      warnings := if significance then [MapWarning.significanceBoost] else []
      finalImage := significance_correction significance (sigma_sm smoothing_FWHM reso)
        (gaussian_filter (sigma_sm smoothing_FWHM reso) image)
      cluster500 := cluster500_overlay cluster_ra cluster_dec cluster_t500
      centerMarker := center_marker cluster_ra cluster_dec cluster_name
      ptgLabel := pointing_label ptg
      pointSources := psMarkers ps_name ps_ra ps_dec }
  else
    { fileWritten := false
      warnings := (if significance then [MapWarning.significanceBoost] else [])
        ++ [MapWarning.emptyMap]
      finalImage := significance_correction significance (sigma_sm smoothing_FWHM reso)
        (gaussian_filter (sigma_sm smoothing_FWHM reso) image)
      cluster500 := none
      centerMarker := none
      ptgLabel := none
      pointSources := [] }

lemma sigma_sm_zero (reso : ℝ) : sigma_sm 0 reso = 0 := by
  rw [sigma_sm]
  simp

lemma show_map_finalImage {n m : ℕ} (image : Fin n → Fin m → ℝ) (reso smoothing_FWHM : ℝ)
    (cra cdec ct : Option ℝ) (cname : String) (psn : List String)
    (psr psd : List (Option ℝ)) (ptg : PtgInput) (significance : Bool) :
    (show_map image reso smoothing_FWHM cra cdec ct cname psn psr psd ptg
        significance).finalImage =
      significance_correction significance (sigma_sm smoothing_FWHM reso)
        (gaussian_filter (sigma_sm smoothing_FWHM reso) image) := by
  rw [show_map]
  split <;> rfl

/-- C5: with `smoothing_FWHM = 0` the pixel-space dispersion is `0` and the
Gaussian smoothing step of `show_map` is the identity on the raster. -/
theorem smoothing_zero_fwhm_identity {n m : ℕ} (img : Fin n → Fin m → ℝ) (reso : ℝ) :
    sigma_sm 0 reso = 0 ∧ gaussian_filter (sigma_sm 0 reso) img = img := by
  refine ⟨sigma_sm_zero reso, ?_⟩
  rw [sigma_sm_zero reso, gaussian_filter_zero_sigma]

/-- Counterexample to C2: on a 1x1 raster with pixel value `5`, rendered in
significance mode with `smoothing_FWHM = 0` (hence `sigma_px = 0`), the
post-correction pixel is `0`, not `5`: the zero correction factor IS
multiplied into the pixels, so the raster is not left unchanged. -/
theorem significance_zero_sigma_changes_raster :
    (show_map ((fun _ _ => 5) : Fin 1 → Fin 1 → ℝ) 1 0 none none none ""
        [] [] [] PtgInput.noPtg true).finalImage 0 0 = 0 ∧
    ((fun _ _ => 5) : Fin 1 → Fin 1 → ℝ) 0 0 = 5 ∧ (0 : ℝ) ≠ 5 := by
  refine ⟨?_, rfl, by norm_num⟩
  rw [show_map_finalImage, sigma_sm_zero, gaussian_filter_zero_sigma,
    significance_correction]
  simp

/-- C2 amended: in significance mode every pixel of the smoothed raster is
rescaled by the factor `2*sigma_px*sqrt(pi)`; there is no special case for
`sigma_px = 0`: the zero factor is multiplied into the pixels, producing an
all-zero raster. -/
theorem significance_rescale_factor {n m : ℕ} (σ : ℝ) (img : Fin n → Fin m → ℝ)
    (i : Fin n) (j : Fin m) :
    significance_correction true σ img i j = img i j * (2 * σ * Real.sqrt Real.pi) ∧
    significance_correction true 0 img i j = 0 := by
  constructor
  · rw [significance_correction]
    simp
  · rw [significance_correction]
    simp

/-- C3: for every all-zero raster, `show_map` (with the default
`significance=False`) writes no output file and prints exactly one warning,
the empty-map one; the guard path raises no exception (the embedding is a
total function). -/
theorem empty_map_no_file_one_warning {n m : ℕ} (image : Fin n → Fin m → ℝ)
    (reso smoothing_FWHM : ℝ) (cra cdec ct : Option ℝ) (cname : String)
    (psn : List String) (psr psd : List (Option ℝ)) (ptg : PtgInput)
    (hz : ∀ i j, image i j = 0) :
    (show_map image reso smoothing_FWHM cra cdec ct cname psn psr psd ptg
        false).fileWritten = false ∧
    (show_map image reso smoothing_FWHM cra cdec ct cname psn psr psd ptg
        false).warnings = [MapWarning.emptyMap] := by
  have hall : ∀ i j, significance_correction false (sigma_sm smoothing_FWHM reso)
      (gaussian_filter (sigma_sm smoothing_FWHM reso) image) i j = 0 := by
    intro i j
    rw [significance_correction]
    simp only [Bool.false_eq_true, if_false]
    exact gaussian_filter_zero_image _ image hz i j
  rw [show_map, if_neg (not_not_intro hall)]
  simp

/-- Witness for C3 on a concrete 10x10 all-zero raster. -/
theorem empty_map_no_file_one_warning_witness :
    (show_map ((fun _ _ => 0) : Fin 10 → Fin 10 → ℝ) 1 0 none none none ""
        [] [] [] PtgInput.noPtg false).fileWritten = false ∧
    (show_map ((fun _ _ => 0) : Fin 10 → Fin 10 → ℝ) 1 0 none none none ""
        [] [] [] PtgInput.noPtg false).warnings = [MapWarning.emptyMap] :=
  empty_map_no_file_one_warning ((fun _ _ => 0) : Fin 10 → Fin 10 → ℝ) 1 0
    none none none "" [] [] [] PtgInput.noPtg (fun _ _ => rfl)

/-- C6: the region ellipse drawn for the cluster characteristic radius has
right-ascension half-width `radius / cos(declination)` and declination full
height `2 * radius`; in particular at declination 60 degrees with radius
0.5 degrees the RA half-width is exactly 1 degree. -/
theorem cluster_ellipse_geometry :
    (∀ ra dec r : ℝ,
      (cluster_ellipse ra dec r).2.2.1 / 2 = r / Real.cos (dec * Real.pi / 180) ∧
      (cluster_ellipse ra dec r).2.2.2 = 2 * r) ∧
    (cluster_ellipse 150 60 0.5).2.2.1 / 2 = 1 := by
  have key : ∀ ra dec r : ℝ,
      (cluster_ellipse ra dec r).2.2.1 / 2 = r / Real.cos (dec * Real.pi / 180) := by
    intro ra dec r
    rw [cluster_ellipse]
    simp only
    rw [div_div, mul_comm (Real.cos (dec * Real.pi / 180)) 2, mul_div_mul_left _ _ (by norm_num : (2:ℝ) ≠ 0)]
  refine ⟨fun ra dec r => ⟨key ra dec r, rfl⟩, ?_⟩
  rw [key 150 60 0.5]
  have h60 : (60 : ℝ) * Real.pi / 180 = Real.pi / 3 := by ring
  rw [h60, Real.cos_pi_div_three]
  norm_num

/-- C9: rendering any raster in significance mode with `smoothing_FWHM = 0`
multiplies every pixel by the factor `2*sigma_px*sqrt(pi) = 0`, so the
post-correction image is identically zero, the empty-map guard fires, and
no output file is written (only the significance caveat and the empty-map
warning are printed). -/
theorem significance_zero_fwhm_blank {n m : ℕ} (image : Fin n → Fin m → ℝ) (reso : ℝ)
    (cra cdec ct : Option ℝ) (cname : String) (psn : List String)
    (psr psd : List (Option ℝ)) (ptg : PtgInput) :
    2 * sigma_sm 0 reso * Real.sqrt Real.pi = 0 ∧
    (show_map image reso 0 cra cdec ct cname psn psr psd ptg true).finalImage
      = (fun _ _ => 0) ∧
    (show_map image reso 0 cra cdec ct cname psn psr psd ptg true).fileWritten = false ∧
    (show_map image reso 0 cra cdec ct cname psn psr psd ptg true).warnings
      = [MapWarning.significanceBoost, MapWarning.emptyMap] := by
  have hfac : 2 * sigma_sm 0 reso * Real.sqrt Real.pi = 0 := by
    rw [sigma_sm_zero]
    ring
  have hall : ∀ i j, significance_correction true (sigma_sm 0 reso)
      (gaussian_filter (sigma_sm 0 reso) image) i j = 0 := by
    intro i j
    rw [significance_correction]
    simp only [if_true]
    rw [hfac, mul_zero]
  refine ⟨hfac, ?_, ?_, ?_⟩
  · rw [show_map_finalImage]
    funext i j
    exact hall i j
  · rw [show_map, if_neg (not_not_intro hall)]
  · rw [show_map, if_neg (not_not_intro hall)]
    simp

lemma psMarkers_nil (ps_ra ps_dec : List (Option ℝ)) : psMarkers [] ps_ra ps_dec = [] := by
  rw [psMarkers]
  simp

lemma psMarkers_cons (nm : String) (ns : List String) (r d : Option ℝ)
    (rs ds : List (Option ℝ)) :
    psMarkers (nm :: ns) (r :: rs) (d :: ds) =
      (match r, d with
       | some ra, some dec => (nm, ra, dec) :: psMarkers ns rs ds
       | _, _ => psMarkers ns rs ds) := by
  cases r <;> cases d <;>
    simp [psMarkers, List.range_succ_eq_map, List.filterMap_cons, List.filterMap_map,
      Function.comp_def, List.getD_cons_succ, List.getD_cons_zero]

/-- C7: for parallel point-source name/RA/Dec lists, the rendered markers
are exactly the entries with both coordinates present (each with its
marker position and label name), and every entry whose RA or Dec is `None`
is skipped without being reported; the loop is total, so nothing raises. -/
theorem point_source_skip (names : List String) (ras decs : List (Option ℝ))
    (h1 : ras.length = names.length) (h2 : decs.length = names.length) :
    psMarkers names ras decs =
      (names.zip (ras.zip decs)).filterMap (fun e =>
        match e with
        | (nm, some ra, some dec) => some (nm, ra, dec)
        | _ => none) := by
  induction names generalizing ras decs with
  | nil =>
      rw [psMarkers_nil]
      simp
  | cons nm ns ih =>
      cases ras with
      | nil => simp at h1
      | cons r rs =>
          cases decs with
          | nil => simp at h2
          | cons d ds =>
              rw [psMarkers_cons]
              have h1' : rs.length = ns.length := by simpa using h1
              have h2' : ds.length = ns.length := by simpa using h2
              cases r <;> cases d <;>
                simp [List.filterMap_cons, ih rs ds h1' h2']

/-- Witness for C7 on concrete lists: entry "b" has a missing RA and is
skipped, entries "a" and "c" are rendered. -/
theorem point_source_skip_witness :
    psMarkers ["a", "b", "c"] [some 1, none, some 3] [some 4, some 5, some 6] =
      ((["a", "b", "c"].zip ([some (1:ℝ), none, some 3].zip
          [some (4:ℝ), some 5, some 6])).filterMap (fun e =>
        match e with
        | (nm, some ra, some dec) => some (nm, ra, dec)
        | _ => none)) :=
  point_source_skip ["a", "b", "c"] [some 1, none, some 3] [some 4, some 5, some 6]
    rfl rfl

/-- C8: the pointing label reads `"Pointing"` exactly for a single
coordinate pair and `"Pointings"` exactly for a (nonempty) list of
pointings, in which case it is anchored at the first pointing only. -/
theorem pointing_label_plural :
    (∀ ra dec : ℝ,
      pointing_label (PtgInput.single ra dec) = some ("Pointing", ra, dec + 0.2)) ∧
    (∀ (ra0 dec0 : ℝ) (ras decs : List ℝ),
      pointing_label (PtgInput.multiple (ra0 :: ras) (dec0 :: decs))
        = some ("Pointings", ra0, dec0 + 0.2)) ∧
    "Pointing" ≠ "Pointings" :=
  ⟨fun _ _ => rfl, fun _ _ _ _ => rfl, by decide⟩

/-! ### Observation-ID validation (`Admin._check_obsID`,
src/clustpipe_admin.py lines 38-89) -/

/-- An element of a Python list passed as `obsID`: either a string or a
value of some other type. -/
inductive PyVal
  | str (s : String) : PyVal
  | nonstr : PyVal
deriving DecidableEq

/-- The `obsID` argument of `_check_obsID`: `None`, a single string, a
Python list, or a value of any other type. -/
inductive ObsIDInput
  | noneInput : ObsIDInput
  | strInput (s : String) : ObsIDInput
  | listInput (xs : List PyVal) : ObsIDInput
  | otherInput : ObsIDInput

/-- The validation loop of the list branch (clustpipe_admin.py lines
65-74): walk the list in order; a non-string element raises a
`ValueError`; a string element is kept exactly when it occurs in the valid
obsID list `self.obs_setup.obsid` (an invalid one is only warned about and
flagged out). -/
def selectGood (valid : List String) : List PyVal → Except String (List String)
  | [] => Except.ok []
  | PyVal.str s :: rest =>
      (selectGood valid rest).map (fun gs => if s ∈ valid then s :: gs else gs)
  | PyVal.nonstr :: _ =>
      Except.error "The given obsID should be a string or a list of string."

/-- Embedding of `Admin._check_obsID` (clustpipe_admin.py lines 38-89),
with the instance field `self.obs_setup.obsid` passed as `valid`.
`None` returns `valid` unchanged; a string is wrapped into a singleton if
valid and raises otherwise; a list is validated by `selectGood`, raises if
no entry survives (`np.sum(good) == 0`), and is deduplicated by
`list(set(obsID))` — the Python set iteration order is unspecified, so the
deduplication is modelled with `List.dedup`, which is faithful up to the
order of the returned entries; any other type raises. -/
def check_obsID (valid : List String) : ObsIDInput → Except String (List String)
  | ObsIDInput.noneInput => Except.ok valid
  | ObsIDInput.strInput s =>
      if s ∈ valid then Except.ok [s]
      else Except.error "The given obsID does not match any of the available observation ID."
  | ObsIDInput.listInput xs =>
      match selectGood valid xs with
      | Except.error e => Except.error e
      | Except.ok gs =>
          if gs.length = 0 then Except.error "None of the given obsID exist"
          else Except.ok gs.dedup
  | ObsIDInput.otherInput =>
      Except.error "The obsID should be either a list or a string."

lemma selectGood_strings (valid : List String) (xs : List String) :
    selectGood valid (xs.map PyVal.str)
      = Except.ok (xs.filter (fun s => decide (s ∈ valid))) := by
  induction xs with
  | nil => rfl
  | cons x rest ih =>
      rw [List.map_cons, selectGood, ih]
      rw [Except.map, List.filter_cons]
      by_cases hx : x ∈ valid
      · rw [if_pos hx, if_pos (by simpa using hx)]
      · rw [if_neg hx, if_neg (by simpa using hx)]

lemma selectGood_nonstr (valid : List String) (xs : List PyVal)
    (h : PyVal.nonstr ∈ xs) : ∃ e, selectGood valid xs = Except.error e := by
  induction xs with
  | nil => simp at h
  | cons x rest ih =>
      cases x with
      | nonstr => exact ⟨_, rfl⟩
      | str s =>
          have hr : PyVal.nonstr ∈ rest := by
            rcases List.mem_cons.mp h with h1 | h1
            · exact absurd h1 (by simp)
            · exact h1
          obtain ⟨e, he⟩ := ih hr
          refine ⟨e, ?_⟩
          rw [selectGood, he]
          rfl

/-- C10: `_check_obsID` with `obsID = None` returns the configured obsID
list unchanged; with a list of strings it raises a `ValueError` exactly
when no entry occurs in the configured list, and otherwise returns a
duplicate-free list containing exactly the input entries that occur in the
configured list; with a list containing a non-string element it raises a
`ValueError`. -/
theorem check_obsID_spec (valid : List String) :
    check_obsID valid ObsIDInput.noneInput = Except.ok valid ∧
    (∀ xs : List String,
      ((∃ s ∈ xs, s ∈ valid) →
        ∃ l, check_obsID valid (ObsIDInput.listInput (xs.map PyVal.str)) = Except.ok l ∧
          l.Nodup ∧ ∀ s : String, s ∈ l ↔ (s ∈ xs ∧ s ∈ valid)) ∧
      ((∀ s ∈ xs, s ∉ valid) →
        ∃ e, check_obsID valid (ObsIDInput.listInput (xs.map PyVal.str))
          = Except.error e)) ∧
    (∀ xs : List PyVal, PyVal.nonstr ∈ xs →
      ∃ e, check_obsID valid (ObsIDInput.listInput xs) = Except.error e) := by
  refine ⟨rfl, fun xs => ⟨?_, ?_⟩, fun xs h => ?_⟩
  · rintro ⟨s, hs, hv⟩
    simp only [check_obsID, selectGood_strings]
    have hmem : s ∈ xs.filter (fun s => decide (s ∈ valid)) :=
      List.mem_filter.mpr ⟨hs, by simpa using hv⟩
    have hne : (xs.filter (fun s => decide (s ∈ valid))).length ≠ 0 := by
      intro h0
      rw [List.length_eq_zero] at h0
      rw [h0] at hmem
      simp at hmem
    rw [if_neg hne]
    refine ⟨_, rfl, List.nodup_dedup _, fun t => ?_⟩
    rw [List.mem_dedup, List.mem_filter]
    simp
  · intro hnone
    simp only [check_obsID, selectGood_strings]
    have h0 : xs.filter (fun s => decide (s ∈ valid)) = [] := by
      rw [List.filter_eq_nil_iff]
      intro a ha
      simpa using hnone a ha
    rw [h0]
    exact ⟨_, rfl⟩
  · obtain ⟨e, he⟩ := selectGood_nonstr valid xs h
    simp only [check_obsID, he]
    exact ⟨e, rfl⟩

/-- Witness for C10: with valid obsIDs `["a", "b"]`, the input list
`["a", "c", "a"]` (valid entry present, one unknown entry, one duplicate)
yields a duplicate-free list whose members are exactly the valid input
entries. -/
theorem check_obsID_spec_witness :
    ∃ l, check_obsID ["a", "b"]
        (ObsIDInput.listInput (["a", "c", "a"].map PyVal.str)) = Except.ok l ∧
      l.Nodup ∧ ∀ s : String, s ∈ l ↔ (s ∈ ["a", "c", "a"] ∧ s ∈ ["a", "b"]) :=
  ((check_obsID_spec ["a", "b"]).2.1 ["a", "c", "a"]).1 (by decide)

end ClusterPipe
